import Mathlib

/-!
A shallow embedding of `ocl::Device` from `src/Code/src/ocl_device.cpp`
(OpenCL-Wrapper).  Native identifiers (`cl_device_id`, `cl_platform_id`)
are natural numbers with `0` the null sentinel.  The native OpenCL API is
an explicit environment (`NativeEnv`); every operation returns the list of
native calls it issues together with its result, with `Except` standing in
for C++ exception propagation.  The version-gated retain/release code
(`#ifdef OPENCL_V1_2`) is embedded with the macro taken as defined, which
is the configuration the specification describes.
-/

/-! ## The C library fragments used by `ocl_device.cpp` -/

/-- C `isspace` in the default locale, as consulted by `sscanf` when a
conversion or a whitespace directive skips leading whitespace. -/
def isSpaceChar (c : Char) : Bool :=
  c == ' ' || c == '\t' || c == '\n' || c == '\x0b' || c == '\x0c' || c == '\r'

/-- Numeric value of a (hexadecimal) digit character. -/
def digitVal (c : Char) : Nat :=
  if '0' ≤ c ∧ c ≤ '9' then c.toNat - '0'.toNat
  else if 'a' ≤ c ∧ c ≤ 'f' then c.toNat - 'a'.toNat + 10
  else if 'A' ≤ c ∧ c ≤ 'F' then c.toNat - 'A'.toNat + 10
  else 0

/-- Whether `c` is a digit of the given base (8, 10 or 16), as accepted by
the `%i` conversion of `sscanf`. -/
def isDigitBase (base : Nat) (c : Char) : Bool :=
  if base = 16 then ('0' ≤ c && c ≤ '9') || ('a' ≤ c && c ≤ 'f') || ('A' ≤ c && c ≤ 'F')
  else if base = 8 then '0' ≤ c && c ≤ '7'
  else '0' ≤ c && c ≤ '9'

/-- Reads a maximal run of digits of the given base, accumulating their
value; returns the value and the unread remainder. -/
def readDigits (base : Nat) : List Char → Nat → Nat × List Char
  | [], acc => (acc, [])
  | c :: rest, acc =>
    if isDigitBase base c then readDigits base rest (acc * base + digitVal c)
    else (acc, c :: rest)

/-- Magnitude part of the `%i` conversion after an optional sign: base is
auto-detected (`0x`/`0X` hexadecimal, leading `0` octal, otherwise
decimal); at least one digit is required, otherwise the conversion fails
(`none`). -/
def scanIntegerCore : List Char → Option (Nat × List Char)
  | '0' :: c :: rest =>
    if c = 'x' ∨ c = 'X' then
      match rest with
      | d :: _ => if isDigitBase 16 d then some (readDigits 16 rest 0) else some (0, c :: rest)
      | [] => some (0, c :: rest)
    else if isDigitBase 8 c then some (readDigits 8 (c :: rest) 0)
    else some (0, c :: rest)
  | ['0'] => some (0, [])
  | c :: rest => if isDigitBase 10 c then some (readDigits 10 (c :: rest) 0) else none
  | [] => none

/-- The `%i` conversion of `sscanf`: skip leading whitespace, optional
sign, then a base-detected integer.  `none` is a matching failure (the
corresponding output variable keeps its previous value). -/
def scanInteger (l : List Char) : Option (Int × List Char) :=
  match l.dropWhile isSpaceChar with
  | '-' :: r => (scanIntegerCore r).map (fun p => (-(p.1 : Int), p.2))
  | '+' :: r => (scanIntegerCore r).map (fun p => ((p.1 : Int), p.2))
  | l1 => (scanIntegerCore l1).map (fun p => ((p.1 : Int), p.2))

/-- Matches a literal character sequence at the head of the input (the
non-conversion, non-whitespace directives of a `sscanf` format); returns
the remainder on success. -/
def matchLiteral : List Char → List Char → Option (List Char)
  | [], s => some s
  | _ :: _, [] => none
  | c :: cs, d :: ds => if c = d then matchLiteral cs ds else none

/-- `std::sscanf(s, "OpenCL %i.%i", &mjr, &mnr)` with `mjr`/`mnr`
initialised to `0`, as performed by both `ocl::Device::supportsVersion`
(line 57) and the static `supportsAtLeast1Point2` (line 72): matches the
literal prefix `OpenCL`, a whitespace run, an integer, a literal dot and a
second integer; on any matching failure the yet-unassigned outputs keep
their zero initialisation. -/
def sscanfVersion (s : List Char) : Int × Int :=
  match matchLiteral (("OpenCL").toList) s with
  | none => (0, 0)
  | some r1 =>
    match scanInteger (r1.dropWhile isSpaceChar) with
    | none => (0, 0)
    | some (mjr, r2) =>
      match r2 with
      | '.' :: r3 =>
        match scanInteger r3 with
        | none => (mjr, 0)
        | some (mnr, _) => (mjr, mnr)
      | _ => (mjr, 0)

/-! ## Version comparison (`ocl::Device::supportsVersion`, lines 53-60, and
the gate of `supportsAtLeast1Point2`, lines 63-76) -/

/-- `ocl::Device::supportsVersion(major, minor)` applied to a given
version string: `mjr > major || (mjr == major && mnr >= minor)` over the
`sscanf`-parsed pair. -/
def supportsVersion (s : List Char) (major minor : Int) : Bool :=
  let p := sscanfVersion s
  decide (major < p.1) || (decide (p.1 = major) && decide (minor ≤ p.2))

/-- The parse-and-compare of the static `supportsAtLeast1Point2` applied
to a given version string: `major > 1 || (major == 1 && minor > 1)` over
the `sscanf`-parsed pair. -/
def gate12 (s : List Char) : Bool :=
  let p := sscanfVersion s
  decide (1 < p.1) || (decide (p.1 = 1) && decide (1 < p.2))

/-! ## Extension scan (static `supportsExtension`, lines 346-360)

The C loop walks the `c_str()` buffer of the extensions string with a raw
pointer: at each token start it takes `n = strcspn(p, " ")`, compares the
token with the query, and advances `p += n + 1`.  The embedding works on
the character list of the string (the terminating null byte sits one past
the end of the list); positions are kept as the suffix list still ahead of
the pointer.  Advancing past the null terminator — which the C code does
whenever the last token neither matches nor is followed by a space — is
the out-of-bounds read recorded by `ScanResult.oobRead`. -/

/-- The null byte terminating a `c_str()` buffer. -/
def nulChar : Char := Char.ofNat 0

/-- Characters the `strcspn(p, " ")` span keeps scanning over: everything
but the space separator and the terminator. -/
def keepChar (c : Char) : Bool := decide (c ≠ ' ') && decide (c ≠ nulChar)

/-- `strcspn(p, " ")`: length of the initial segment free of spaces (and
of embedded null bytes, where a `c_str()` scan stops). -/
def cspn (l : List Char) : Nat := (l.takeWhile keepChar).length

/-- Outcome of the extension scan loop.  `oobRead` records that the loop
condition `*p != '\0'` dereferenced the position one past the string's
terminating null byte, i.e. index `length + 1` of the buffer — an
out-of-bounds read. -/
inductive ScanResult
  | found
  | notFound
  | oobRead
deriving DecidableEq

/-- One unfolding of the `while (*p != '\0')` loop of the static
`supportsExtension`, on the suffix `l` of the extensions string still
ahead of `p`.  The fuel argument only forces termination; it never runs
out when it starts at `length + 1` (each step drops at least one
character). -/
def scanFuel (ext : List Char) : Nat → List Char → ScanResult
  | 0, _ => ScanResult.oobRead
  | _ + 1, [] => ScanResult.notFound
  | fuel + 1, c :: tail =>
    if c = nulChar then ScanResult.notFound
    else
      let n := cspn (c :: tail)
      if ext.length = n ∧ (c :: tail).take n = ext then ScanResult.found
      else if (c :: tail).length < n + 1 then ScanResult.oobRead
      else scanFuel ext fuel ((c :: tail).drop (n + 1))

/-- The full scan of the static `supportsExtension(extensionsString,
extension)` over the character list of the extensions string. -/
def scanExtension (exts ext : List Char) : ScanResult :=
  scanFuel ext (exts.length + 1) exts

/-- Boolean view of the scan: the C function has returned `true` exactly
when a token matched; in the `oobRead` outcome it has returned nothing by
the time the pointer leaves the buffer (see the safety theorem on
`scanExtension`). -/
def supportsExtensionBool (exts ext : List Char) : Bool :=
  decide (scanExtension exts ext = ScanResult.found)

/-- The space-delimited tokens of a string: the reference tokenization the
scan is measured against ("some token's length and byte content exactly
equal the query"). -/
def spaceTokens : List Char → List (List Char)
  | [] => [[]]
  | c :: rest =>
    if c = ' ' then [] :: spaceTokens rest
    else
      match spaceTokens rest with
      | [] => [[c]]
      | t :: ts => (c :: t) :: ts

/-! ## The native layer

Identifiers are `Nat` (`0` = null).  `NativeEnv` is the oracle standing
for the OpenCL runtime: statuses and answers of `clGetDeviceInfo` /
`clGetPlatformInfo` / `clRetainDevice` / `clReleaseDevice`.  Every
operation of the wrapper returns the list of native calls it issued (in
order) next to its result. -/

/-- `CL_DEVICE_TYPE` -/
def CL_DEVICE_TYPE : Nat := 0x1000
/-- `CL_DEVICE_MAX_COMPUTE_UNITS` -/
def CL_DEVICE_MAX_COMPUTE_UNITS : Nat := 0x1002
/-- `CL_DEVICE_PLATFORM` -/
def CL_DEVICE_PLATFORM : Nat := 0x1031
/-- `CL_DEVICE_NAME` -/
def CL_DEVICE_NAME : Nat := 0x102B
/-- `CL_DEVICE_VENDOR` -/
def CL_DEVICE_VENDOR : Nat := 0x102C
/-- `CL_DEVICE_VERSION` -/
def CL_DEVICE_VERSION : Nat := 0x102F
/-- `CL_DEVICE_EXTENSIONS` -/
def CL_DEVICE_EXTENSIONS : Nat := 0x1030
/-- `CL_PLATFORM_VERSION` -/
def CL_PLATFORM_VERSION : Nat := 0x0901

/-- A native call issued by the wrapper, as recorded in traces.
`bufSize` is the `param_value_size` argument; `sizeRequested` is whether a
non-null `param_value_size_ret` out-pointer was passed. -/
inductive NativeCall
  | getDeviceInfo (deviceId : Nat) (key : Nat) (bufSize : Nat) (sizeRequested : Bool)
  | getPlatformInfo (platformId : Nat) (key : Nat) (bufSize : Nat) (sizeRequested : Bool)
  | releaseDevice (deviceId : Nat)
  | retainDevice (deviceId : Nat)
deriving DecidableEq

/-- Whether a native call is a `clReleaseDevice`. -/
def isReleaseCall : NativeCall → Bool
  | NativeCall.releaseDevice _ => true
  | _ => false

/-- Number of `clReleaseDevice` calls in a trace. -/
def releaseCount (t : List NativeCall) : Nat := (t.filter isReleaseCall).length

/-- The OpenCL runtime as an oracle.  `deviceInfoStatus` is the status
code a `clGetDeviceInfo` call for the given device and key reports;
`deviceInfoNat` the scalar it writes, `deviceInfoStr` the string payload
(terminator excluded) and `deviceInfoSize` the byte size it reports for a
size request.  `stackGarbage` is the content the uninitialised 128-byte
stack buffer of `supportsAtLeast1Point2` keeps when the (unchecked)
`clGetPlatformInfo` call fails because the platform version string does
not fit. -/
structure NativeEnv where
  deviceInfoStatus : Nat → Nat → Int
  deviceInfoNat : Nat → Nat → Nat
  deviceInfoStr : Nat → Nat → List Char
  deviceInfoSize : Nat → Nat → Nat
  devicePlatform : Nat → Nat
  platformVersion : Nat → List Char
  stackGarbage : List Char
  releaseStatus : Nat → Int
  retainStatus : Nat → Int

/-- Errors this component can propagate.  Modelled from the spec: the
error taxonomy of §7 — `nativeApiError` is what the `OPENCL_SAFE_CALL`
boundary (declared outside this translation unit) throws for a non-success
native status; `platformNotFound` is the distinct error
`ocl::Device::platform` raises itself (line 299); `preconditionError`
names the empty-handle precondition failure of the spec, which nothing in
`ocl_device.cpp` ever raises. -/
inductive OclError
  | nativeApiError (code : Int)
  | platformNotFound
  | preconditionError
deriving DecidableEq

/-- The state of an `ocl::Device`: the wrapped identifier `_id` and the
classified `_type` (kept opaque as the numeric device-type code; its
enumeration lives in a header outside `src/`). -/
structure DeviceState where
  id : Nat
  typ : Nat
deriving DecidableEq

/-- `ocl::Device::Device()` (lines 47-51): null identifier, type ALL
(`CL_DEVICE_TYPE_ALL`). -/
def emptyDevice : DeviceState := { id := 0, typ := 0xFFFFFFFF }

/-- `ocl::Device::maxComputeUnits` (lines 228-233): one fixed-size
`clGetDeviceInfo` on the stored identifier — issued unconditionally, with
no empty-handle check — wrapped in `OPENCL_SAFE_CALL`.  The `cl_uint`
value is reduced mod `2^32` and widened to `size_t`. -/
def maxComputeUnits (env : NativeEnv) (d : DeviceState) :
    List NativeCall × Except OclError Nat :=
  ([NativeCall.getDeviceInfo d.id CL_DEVICE_MAX_COMPUTE_UNITS 4 false],
   if env.deviceInfoStatus d.id CL_DEVICE_MAX_COMPUTE_UNITS = 0 then
     Except.ok (env.deviceInfoNat d.id CL_DEVICE_MAX_COMPUTE_UNITS % 2 ^ 32)
   else Except.error (OclError.nativeApiError (env.deviceInfoStatus d.id CL_DEVICE_MAX_COMPUTE_UNITS)))

/-- `ocl::Device::platform` (lines 295-301): a fixed-size `clGetDeviceInfo`
for `CL_DEVICE_PLATFORM` through `OPENCL_SAFE_CALL`, then an explicit
null check throwing the distinct "platform not found" error. -/
def platformQuery (env : NativeEnv) (d : DeviceState) :
    List NativeCall × Except OclError Nat :=
  ([NativeCall.getDeviceInfo d.id CL_DEVICE_PLATFORM 8 false],
   if env.deviceInfoStatus d.id CL_DEVICE_PLATFORM = 0 then
     if env.devicePlatform d.id = 0 then Except.error OclError.platformNotFound
     else Except.ok (env.devicePlatform d.id)
   else Except.error (OclError.nativeApiError (env.deviceInfoStatus d.id CL_DEVICE_PLATFORM)))

/-- The static `getDeviceInfo` string helper (lines 303-312): first a
size request with a zero-length null buffer, then — if the first call
succeeded — a fill call with a buffer of exactly the reported size. -/
def getDeviceInfoString (env : NativeEnv) (i : Nat) (key : Nat) :
    List NativeCall × Except OclError (List Char) :=
  if env.deviceInfoStatus i key = 0 then
    ([NativeCall.getDeviceInfo i key 0 true,
      NativeCall.getDeviceInfo i key (env.deviceInfoSize i key) false],
     Except.ok (env.deviceInfoStr i key))
  else
    ([NativeCall.getDeviceInfo i key 0 true],
     Except.error (OclError.nativeApiError (env.deviceInfoStatus i key)))

/-- `ocl::Device::version` (lines 315-318). -/
def deviceVersion (env : NativeEnv) (d : DeviceState) :
    List NativeCall × Except OclError (List Char) :=
  getDeviceInfoString env d.id CL_DEVICE_VERSION

/-- `ocl::Device::name` (lines 321-324). -/
def deviceName (env : NativeEnv) (d : DeviceState) :
    List NativeCall × Except OclError (List Char) :=
  getDeviceInfoString env d.id CL_DEVICE_NAME

/-- `ocl::Device::vendor` (lines 327-330). -/
def deviceVendor (env : NativeEnv) (d : DeviceState) :
    List NativeCall × Except OclError (List Char) :=
  getDeviceInfoString env d.id CL_DEVICE_VENDOR

/-- `ocl::Device::extensions` (lines 333-336). -/
def deviceExtensions (env : NativeEnv) (d : DeviceState) :
    List NativeCall × Except OclError (List Char) :=
  getDeviceInfoString env d.id CL_DEVICE_EXTENSIONS

/-- `ocl::Device::supportsVersion` at the device level: parse-and-compare
on the queried version string. -/
def deviceSupportsVersion (env : NativeEnv) (d : DeviceState) (major minor : Int) :
    List NativeCall × Except OclError Bool :=
  let r := deviceVersion env d
  (r.1, r.2.map (fun s => supportsVersion s major minor))

/-- `ocl::Device::supportsExtension` (lines 371-374): the static scan over
the queried extensions string. -/
def deviceSupportsExtension (env : NativeEnv) (d : DeviceState) (ext : List Char) :
    List NativeCall × Except OclError Bool :=
  let r := deviceExtensions env d
  (r.1, r.2.map (fun s => supportsExtensionBool s ext))

/-- `ocl::Device::doubleSupport` (lines 381-384). -/
def doubleSupport (env : NativeEnv) (d : DeviceState) :
    List NativeCall × Except OclError Bool :=
  deviceSupportsExtension env d (("cl_khr_fp64").toList)

/-- The static `supportsAtLeast1Point2` (lines 63-76): a single
`clGetPlatformInfo` with a fixed 128-byte stack buffer (size out-pointer
passed, status not checked), then the `sscanf` parse-and-compare.  When
the version string does not fit the buffer (counting its terminator) the
call fails without filling the buffer and the parse runs on the
uninitialised stack content. -/
def supportsAtLeast1Point2Run (env : NativeEnv) (pid : Nat) :
    List NativeCall × Bool :=
  ([NativeCall.getPlatformInfo pid CL_PLATFORM_VERSION 128 true],
   gate12 (if (env.platformVersion pid).length < 128 then env.platformVersion pid
           else env.stackGarbage))

/-- `ocl::Device::~Device` (lines 81-91): if `_id` is non-null, query the
owning platform (still through the live identifier), run the 1.2 gate on
it, release if the gate holds, then clear `_id`.  Exceptions escaping
`platform()` or the release propagate with `_id` untouched. -/
def destroyDevice (env : NativeEnv) (d : DeviceState) :
    List NativeCall × Except OclError DeviceState :=
  if d.id = 0 then ([], Except.ok d)
  else
    let pq := platformQuery env d
    match pq.2 with
    | Except.error e => (pq.1, Except.error e)
    | Except.ok pid =>
      let gr := supportsAtLeast1Point2Run env pid
      if gr.2 then
        (pq.1 ++ gr.1 ++ [NativeCall.releaseDevice d.id],
         if env.releaseStatus d.id = 0 then Except.ok { d with id := 0 }
         else Except.error (OclError.nativeApiError (env.releaseStatus d.id)))
      else (pq.1 ++ gr.1, Except.ok { d with id := 0 })

/-- `ocl::Device::setId` (lines 138-141): plain assignment of `_id`; no
native call, no change to `_type`. -/
def setId (d : DeviceState) (i : Nat) : List NativeCall × DeviceState :=
  ([], { d with id := i })

/-- `ocl::Device::operator==(const Device&)` (lines 163-166):
`dev.id() == this->id()`. -/
def deviceEqDevice (a b : DeviceState) : Bool := decide (b.id = a.id)

/-- `ocl::Device::operator!=(const Device&)` (lines 171-174). -/
def deviceNeDevice (a b : DeviceState) : Bool := decide (b.id ≠ a.id)

/-- `ocl::Device::operator==(cl_device_id)` (lines 179-182). -/
def deviceEqId (a : DeviceState) (i : Nat) : Bool := decide (i = a.id)

/-- `ocl::Device::operator!=(cl_device_id)` (lines 187-190). -/
def deviceNeId (a : DeviceState) (i : Nat) : Bool := decide (i ≠ a.id)

/-- Modelled from the spec: "each issues a two-step query — first asking
the native API for the required buffer length, then a second call filling
a buffer of exactly that length".  A trace follows the two-step string
pattern when it is exactly a size request (zero-length buffer, size
out-pointer) followed by one fill call on the same identifier and key. -/
def isTwoStepStringRead : List NativeCall → Bool
  | [NativeCall.getDeviceInfo i k 0 true, NativeCall.getDeviceInfo j l _ false] =>
    i == j && k == l
  | [NativeCall.getPlatformInfo i k 0 true, NativeCall.getPlatformInfo j l _ false] =>
    i == j && k == l
  | _ => false

/-- A sample runtime: every call succeeds, scalar queries answer `7`, the
platform of every device is `1`, and platform `1` reports version
`OpenCL 1.2` (so the 1.2 gate holds). -/
def sampleEnv : NativeEnv where
  deviceInfoStatus := fun _ _ => 0
  deviceInfoNat := fun _ _ => 7
  deviceInfoStr := fun _ _ => ("OpenCL 1.2").toList
  deviceInfoSize := fun _ _ => 11
  devicePlatform := fun _ => 1
  platformVersion := fun _ => ("OpenCL 1.2").toList
  stackGarbage := []
  releaseStatus := fun _ => 0
  retainStatus := fun _ => 0

/-- A runtime whose platform query answers the null platform for every
device (all statuses success). -/
def nullPlatformEnv : NativeEnv where
  deviceInfoStatus := fun _ _ => 0
  deviceInfoNat := fun _ _ => 7
  deviceInfoStr := fun _ _ => []
  deviceInfoSize := fun _ _ => 1
  devicePlatform := fun _ => 0
  platformVersion := fun _ => []
  stackGarbage := []
  releaseStatus := fun _ => 0
  retainStatus := fun _ => 0

/-- A runtime whose platform reports version `OpenCL 1.1` (the 1.2 gate
fails). -/
def oldPlatformEnv : NativeEnv where
  deviceInfoStatus := fun _ _ => 0
  deviceInfoNat := fun _ _ => 7
  deviceInfoStr := fun _ _ => ("OpenCL 1.1").toList
  deviceInfoSize := fun _ _ => 11
  devicePlatform := fun _ => 1
  platformVersion := fun _ => ("OpenCL 1.1").toList
  stackGarbage := []
  releaseStatus := fun _ => 0
  retainStatus := fun _ => 0

/-- Whether a string ends with the space separator (used to state when the
extension scan happens to stay inside the buffer). -/
def endsWithSpace : List Char → Bool
  | [] => false
  | [c] => c == ' '
  | _ :: rest => endsWithSpace rest

/-! ## Helper lemmas on the extension scan -/

theorem keepChar_false_iff (c : Char) : keepChar c = false ↔ c = ' ' ∨ c = nulChar := by
  simp [keepChar, Decidable.or_iff_not_imp_left]

theorem cspn_nil : cspn [] = 0 := rfl

theorem cspn_cons (c : Char) (l : List Char) :
    cspn (c :: l) = if keepChar c then cspn l + 1 else 0 := by
  simp only [cspn, List.takeWhile_cons]
  split <;> simp

theorem cspn_le (l : List Char) : cspn l ≤ l.length := by
  induction l with
  | nil => simp [cspn_nil]
  | cons c rest ih =>
    rw [cspn_cons]
    split
    · simp
      omega
    · simp

theorem take_cspn (l : List Char) : l.take (cspn l) = l.takeWhile keepChar := by
  induction l with
  | nil => simp
  | cons c rest ih =>
    rw [cspn_cons, List.takeWhile_cons]
    by_cases h : keepChar c
    · simp [h, ih]
    · simp [h]

theorem keep_drop_cspn (l : List Char) :
    ∀ c r, l.drop (cspn l) = c :: r → keepChar c = false := by
  induction l with
  | nil => intro c r h; simp at h
  | cons a rest ih =>
    intro c r h
    rw [cspn_cons] at h
    by_cases ha : keepChar a
    · simp [ha] at h
      exact ih c r h
    · simp [ha] at h
      rcases h with ⟨h1, _⟩
      rw [← h1]
      simp [ha]

theorem cspn_eq_length (l : List Char) (h : cspn l = l.length) :
    ∀ c ∈ l, keepChar c = true := by
  have : l.takeWhile keepChar = l := by
    have hs : l.takeWhile keepChar <+: l := List.takeWhile_prefix keepChar
    exact List.IsPrefix.eq_of_length hs h
  intro c hc
  rw [← this] at hc
  exact List.mem_takeWhile_imp hc

theorem endsWithSpace_cons (c : Char) (l : List Char) (h : l ≠ []) :
    endsWithSpace (c :: l) = endsWithSpace l := by
  cases l with
  | nil => exact absurd rfl h
  | cons d rest => rfl

theorem endsWithSpace_mem (l : List Char) (h : endsWithSpace l = true) : ' ' ∈ l := by
  induction l with
  | nil => simp [endsWithSpace] at h
  | cons c rest ih =>
    cases hr : rest with
    | nil =>
      subst hr
      simp [endsWithSpace] at h
      simp [h]
    | cons d rest2 =>
      rw [hr] at h ih
      rw [endsWithSpace_cons c (d :: rest2) (by simp)] at h
      simp [ih h]

theorem endsWithSpace_drop (l : List Char) (n : Nat) (h : l.drop n ≠ []) :
    endsWithSpace (l.drop n) = endsWithSpace l := by
  induction n generalizing l with
  | zero => simp
  | succ m ih =>
    cases l with
    | nil => simp at h
    | cons c rest =>
      simp only [List.drop_succ_cons] at h ⊢
      rw [ih rest h, endsWithSpace_cons c rest]
      intro hr
      rw [hr] at h
      simp at h

theorem spaceTokens_ne_nil (l : List Char) : spaceTokens l ≠ [] := by
  cases l with
  | nil => simp [spaceTokens]
  | cons c rest =>
    simp only [spaceTokens]
    split
    · simp
    · split <;> simp

theorem spaceTokens_decomp (l : List Char) (hnul : nulChar ∉ l) :
    spaceTokens l =
      l.take (cspn l) ::
        (if cspn l = l.length then [] else spaceTokens (l.drop (cspn l + 1))) := by
  induction l with
  | nil => simp [spaceTokens, cspn_nil]
  | cons c rest ih =>
    have hcnul : c ≠ nulChar := by intro h; exact hnul (by simp [h])
    have hrest : nulChar ∉ rest := fun h => hnul (by simp [h])
    by_cases hsp : c = ' '
    · have hk : keepChar c = false := by simp [keepChar, hsp, nulChar]
      rw [cspn_cons, if_neg (by simp [hk])]
      simp only [spaceTokens, if_pos hsp, List.take_zero, List.drop_succ_cons,
        List.drop_zero, List.length_cons]
      rw [if_neg (by omega)]
    · have hk : keepChar c = true := by simp [keepChar, hsp, hcnul]
      rw [cspn_cons, if_pos hk]
      have ihr := ih hrest
      simp only [spaceTokens, if_neg hsp]
      rw [ihr]
      simp only [List.take_succ_cons, List.drop_succ_cons, List.length_cons]
      by_cases hq : cspn rest = rest.length
      · rw [if_pos hq, if_pos (by omega)]
      · rw [if_neg hq, if_neg (by omega)]

theorem scan_notFound_ends (ext : List Char) :
    ∀ fuel l, l.length < fuel → nulChar ∉ l →
      scanFuel ext fuel l = ScanResult.notFound →
      l = [] ∨ endsWithSpace l = true := by
  intro fuel
  induction fuel with
  | zero => intro l h; omega
  | succ f ih =>
    intro l hlen hnul hscan
    cases l with
    | nil => exact Or.inl rfl
    | cons c tail =>
      right
      have hc : c ≠ nulChar := fun h => hnul (by simp [h])
      have hlc : (c :: tail).length = tail.length + 1 := rfl
      simp only [scanFuel, if_neg hc] at hscan
      by_cases hm : ext.length = cspn (c :: tail) ∧
          (c :: tail).take (cspn (c :: tail)) = ext
      · rw [if_pos hm] at hscan
        exact absurd hscan (by simp)
      · rw [if_neg hm] at hscan
        by_cases hlt : (c :: tail).length < cspn (c :: tail) + 1
        · rw [if_pos hlt] at hscan
          exact absurd hscan (by simp)
        · rw [if_neg hlt] at hscan
          have hnle : cspn (c :: tail) ≤ (c :: tail).length := cspn_le _
          have hlen2 : ((c :: tail).drop (cspn (c :: tail) + 1)).length < f := by
            rw [List.length_drop]
            omega
          have hnul2 : nulChar ∉ (c :: tail).drop (cspn (c :: tail) + 1) :=
            fun h => hnul (List.drop_subset _ _ h)
          rcases ih _ hlen2 hnul2 hscan with hnil | hsp
          · have hlen3 : (c :: tail).length = cspn (c :: tail) + 1 := by
              have := List.length_drop (cspn (c :: tail) + 1) (c :: tail)
              rw [hnil] at this
              simp at this
              omega
            cases hd : (c :: tail).drop (cspn (c :: tail)) with
            | nil =>
              have := List.length_drop (cspn (c :: tail)) (c :: tail)
              rw [hd] at this
              simp at this
              omega
            | cons c2 r2 =>
              have hk2 : keepChar c2 = false := keep_drop_cspn _ c2 r2 hd
              have hmem : c2 ∈ c :: tail :=
                List.drop_subset _ _ (by rw [hd]; exact List.mem_cons_self c2 r2)
              have hc2 : c2 ≠ nulChar := fun h => hnul (h ▸ hmem)
              have hc2sp : c2 = ' ' := by
                rcases (keepChar_false_iff c2).mp hk2 with h | h
                · exact h
                · exact absurd h hc2
              have hr2 : r2 = [] := by
                have hld := List.length_drop (cspn (c :: tail)) (c :: tail)
                rw [hd] at hld
                simp at hld
                have hz : r2.length = 0 := by omega
                exact List.length_eq_zero.mp hz
              have hnn : (c :: tail).drop (cspn (c :: tail)) ≠ [] := by
                rw [hd]; simp
              rw [← endsWithSpace_drop _ _ hnn, hd, hr2, hc2sp]
              rfl
          · have hne : (c :: tail).drop (cspn (c :: tail) + 1) ≠ [] := by
              intro h0
              rw [h0] at hsp
              simp [endsWithSpace] at hsp
            rw [← endsWithSpace_drop _ _ hne]
            exact hsp

theorem scan_endsSpace_not_oob (ext : List Char) :
    ∀ fuel l, l.length < fuel → nulChar ∉ l → endsWithSpace l = true →
      scanFuel ext fuel l ≠ ScanResult.oobRead := by
  intro fuel
  induction fuel with
  | zero => intro l h; omega
  | succ f ih =>
    intro l hlen hnul hsp
    cases l with
    | nil => simp [scanFuel]
    | cons c tail =>
      have hc : c ≠ nulChar := fun h => hnul (by simp [h])
      have hlc : (c :: tail).length = tail.length + 1 := rfl
      simp only [scanFuel, if_neg hc]
      by_cases hm : ext.length = cspn (c :: tail) ∧
          (c :: tail).take (cspn (c :: tail)) = ext
      · rw [if_pos hm]
        simp
      · rw [if_neg hm]
        have hnle : cspn (c :: tail) ≤ (c :: tail).length := cspn_le _
        have hnlt : ¬ (c :: tail).length < cspn (c :: tail) + 1 := by
          intro hlt
          have hneq : cspn (c :: tail) = (c :: tail).length := by omega
          have hall := cspn_eq_length _ hneq
          have hspmem := endsWithSpace_mem _ hsp
          have := hall ' ' hspmem
          simp [keepChar] at this
        rw [if_neg hnlt]
        by_cases hd : (c :: tail).drop (cspn (c :: tail) + 1) = []
        · rw [hd]
          cases f with
          | zero => omega
          | succ f2 => simp [scanFuel]
        · have hlen2 : ((c :: tail).drop (cspn (c :: tail) + 1)).length < f := by
            rw [List.length_drop]
            omega
          have hnul2 : nulChar ∉ (c :: tail).drop (cspn (c :: tail) + 1) :=
            fun h => hnul (List.drop_subset _ _ h)
          have hsp2 : endsWithSpace ((c :: tail).drop (cspn (c :: tail) + 1)) = true := by
            rw [endsWithSpace_drop _ _ hd]
            exact hsp
          exact ih _ hlen2 hnul2 hsp2

theorem scan_found_iff_token (ext : List Char) (hext : ext ≠ []) :
    ∀ fuel l, l.length < fuel → nulChar ∉ l →
      (scanFuel ext fuel l = ScanResult.found ↔ ext ∈ spaceTokens l) := by
  intro fuel
  induction fuel with
  | zero => intro l h; omega
  | succ f ih =>
    intro l hlen hnul
    cases l with
    | nil =>
      simp [scanFuel, spaceTokens]
      exact fun h => hext h
    | cons c tail =>
      have hc : c ≠ nulChar := fun h => hnul (by simp [h])
      have hlc : (c :: tail).length = tail.length + 1 := rfl
      have hnle : cspn (c :: tail) ≤ (c :: tail).length := cspn_le _
      have hdec := spaceTokens_decomp (c :: tail) hnul
      simp only [scanFuel, if_neg hc]
      by_cases hm : ext.length = cspn (c :: tail) ∧
          (c :: tail).take (cspn (c :: tail)) = ext
      · rw [if_pos hm, hdec, ← hm.2]
        simp
      · rw [if_neg hm]
        have hne_first : ext ≠ (c :: tail).take (cspn (c :: tail)) := by
          intro he
          apply hm
          refine ⟨?_, he.symm⟩
          rw [he, List.length_take]
          omega
        by_cases hlt : (c :: tail).length < cspn (c :: tail) + 1
        · rw [if_pos hlt, hdec, if_pos (by omega)]
          simp [hne_first]
        · rw [if_neg hlt]
          have hlen2 : ((c :: tail).drop (cspn (c :: tail) + 1)).length < f := by
            rw [List.length_drop]
            omega
          have hnul2 : nulChar ∉ (c :: tail).drop (cspn (c :: tail) + 1) :=
            fun h => hnul (List.drop_subset _ _ h)
          rw [ih _ hlen2 hnul2, hdec, if_neg (by omega)]
          simp [List.mem_cons, hne_first]

/-! ## Claim theorems -/

/-- C1 (counterexample): invoking `maxComputeUnits` on a default-constructed
empty handle with a runtime whose calls succeed issues the native query
with the null identifier `0` and returns the queried value — it neither
raises a precondition error nor withholds the native call. -/
theorem c1_counterexample :
    (maxComputeUnits sampleEnv emptyDevice).1
        = [NativeCall.getDeviceInfo 0 CL_DEVICE_MAX_COMPUTE_UNITS 4 false]
    ∧ (maxComputeUnits sampleEnv emptyDevice).2 = Except.ok 7 :=
  ⟨rfl, rfl⟩

/-- C1 (amended): capability queries on a default-constructed empty handle
perform no precondition check: the native call is issued with the null
identifier `0`, and the only failure mode is the `NativeApiError` of the
safe-call boundary — `PreconditionError` is never raised. -/
theorem c1_empty_query_forwarded (env : NativeEnv) :
    (maxComputeUnits env emptyDevice).1
        = [NativeCall.getDeviceInfo 0 CL_DEVICE_MAX_COMPUTE_UNITS 4 false]
    ∧ (maxComputeUnits env emptyDevice).2 ≠ Except.error OclError.preconditionError
    ∧ (deviceVersion env emptyDevice).1.head?
        = some (NativeCall.getDeviceInfo 0 CL_DEVICE_VERSION 0 true)
    ∧ (deviceVersion env emptyDevice).2 ≠ Except.error OclError.preconditionError
    ∧ (platformQuery env emptyDevice).1
        = [NativeCall.getDeviceInfo 0 CL_DEVICE_PLATFORM 8 false]
    ∧ (platformQuery env emptyDevice).2 ≠ Except.error OclError.preconditionError := by
  refine ⟨rfl, ?_, ?_, ?_, rfl, ?_⟩
  · unfold maxComputeUnits
    split <;> simp
  · unfold deviceVersion getDeviceInfoString
    split <;> rfl
  · unfold deviceVersion getDeviceInfoString
    split <;> simp
  · unfold platformQuery
    split
    · split <;> simp
    · simp

/-- C2 (counterexample): the claim asserts `SupportsVersion(2,0)` is true
for the version string `"X 2.1 extra"`; the `sscanf` format demands the
literal prefix `OpenCL`, so that string parses as `(0,0)` and the query is
false. -/
theorem c2_counterexample :
    supportsVersion (("X 2.1 extra").toList) 2 0 = false := by decide

/-- C2 (amended): `supportsVersion` extracts the two leading integers only
from version strings carrying the literal prefix `OpenCL`; strings with
any other prefix — like the empty string — parse as `(0,0)`.  The result
is true iff `parsedMajor > major ∨ (parsedMajor = major ∧ parsedMinor ≥
minor)`.  Hence for `"OpenCL 2.1 extra"`: `(2,0)` and `(2,1)` hold and
`(2,2)` fails; for `"X 2.1 extra"` all three fail; for the empty string
`(0,0)` holds and `(1,0)` fails. -/
theorem c2_supports_version_amended :
    (∀ s major minor, supportsVersion s major minor = true ↔
        (major < (sscanfVersion s).1 ∨
          ((sscanfVersion s).1 = major ∧ minor ≤ (sscanfVersion s).2)))
    ∧ supportsVersion (("OpenCL 2.1 extra").toList) 2 0 = true
    ∧ supportsVersion (("OpenCL 2.1 extra").toList) 2 1 = true
    ∧ supportsVersion (("OpenCL 2.1 extra").toList) 2 2 = false
    ∧ sscanfVersion (("X 2.1 extra").toList) = (0, 0)
    ∧ supportsVersion (("X 2.1 extra").toList) 2 0 = false
    ∧ supportsVersion (("X 2.1 extra").toList) 2 1 = false
    ∧ sscanfVersion ([]) = (0, 0)
    ∧ supportsVersion ([]) 0 0 = true
    ∧ supportsVersion ([]) 1 0 = false := by
  refine ⟨?_, by decide, by decide, by decide, by decide, by decide, by decide,
    by decide, by decide, by decide⟩
  intro s major minor
  simp only [supportsVersion, Bool.or_eq_true, Bool.and_eq_true, decide_eq_true_eq]

/-- C3: the extension scan returns true iff some space-delimited token of
the extensions string equals the queried name byte-for-byte (no substring
or prefix matching); the listed concrete memberships hold, a stored
`cl_khr_fp64x` does not answer a `cl_khr_fp64` query, and `doubleSupport`
is exactly `supportsExtension("cl_khr_fp64")`. -/
theorem c3_supports_extension_exact_token :
    (∀ exts ext, nulChar ∉ exts → ext ≠ [] →
        (supportsExtensionBool exts ext = true ↔ ext ∈ spaceTokens exts))
    ∧ supportsExtensionBool (("cl_khr_fp64 cl_khr_gl_sharing").toList)
        (("cl_khr_fp64").toList) = true
    ∧ supportsExtensionBool (("cl_khr_fp64 cl_khr_gl_sharing").toList)
        (("cl_khr_fp").toList) = false
    ∧ supportsExtensionBool (("cl_khr_fp64 cl_khr_gl_sharing").toList)
        (("cl_khr_gl_sharing").toList) = true
    ∧ supportsExtensionBool (("cl_khr_fp64x").toList) (("cl_khr_fp64").toList) = false
    ∧ ∀ env d, doubleSupport env d = deviceSupportsExtension env d (("cl_khr_fp64").toList) := by
  refine ⟨?_, by decide, by decide, by decide, by decide, fun env d => rfl⟩
  intro exts ext hnul hext
  simp only [supportsExtensionBool, scanExtension, decide_eq_true_eq]
  exact scan_found_iff_token ext hext (exts.length + 1) exts (by omega) hnul

/-- C3 (witness): the general token characterisation applied to the
concrete extensions string of the claim. -/
theorem c3_witness :
    (("cl_khr_fp64").toList) ∈ spaceTokens (("cl_khr_fp64 cl_khr_gl_sharing").toList) :=
  (c3_supports_extension_exact_token.1 _ _ (by decide) (by decide)).mp (by decide)

/-- C4: destruction of a non-empty handle whose platform supports the 1.2
gate issues the platform lookup (through the still-valid identifier), the
version probe, then exactly one release, and clears the identifier;
destruction of an empty handle, or under a failing gate, issues no
release; destroying the already-cleared handle again releases nothing. -/
theorem c4_destroy_release_balanced (env : NativeEnv) (d : DeviceState)
    (hst : env.deviceInfoStatus d.id CL_DEVICE_PLATFORM = 0)
    (hpl : env.devicePlatform d.id ≠ 0)
    (hrel : env.releaseStatus d.id = 0) :
    (d.id ≠ 0 → (supportsAtLeast1Point2Run env (env.devicePlatform d.id)).2 = true →
      (destroyDevice env d).1
          = [NativeCall.getDeviceInfo d.id CL_DEVICE_PLATFORM 8 false,
             NativeCall.getPlatformInfo (env.devicePlatform d.id) CL_PLATFORM_VERSION 128 true,
             NativeCall.releaseDevice d.id]
        ∧ releaseCount (destroyDevice env d).1 = 1
        ∧ (destroyDevice env d).2 = Except.ok { d with id := 0 })
    ∧ (d.id = 0 → destroyDevice env d = ([], Except.ok d))
    ∧ (d.id ≠ 0 → (supportsAtLeast1Point2Run env (env.devicePlatform d.id)).2 = false →
      releaseCount (destroyDevice env d).1 = 0
        ∧ (destroyDevice env d).2 = Except.ok { d with id := 0 })
    ∧ destroyDevice env { d with id := 0 } = ([], Except.ok { d with id := 0 }) := by
  refine ⟨?_, ?_, ?_, ?_⟩
  · intro hid hgate
    have hfull : destroyDevice env d =
        ([NativeCall.getDeviceInfo d.id CL_DEVICE_PLATFORM 8 false,
          NativeCall.getPlatformInfo (env.devicePlatform d.id) CL_PLATFORM_VERSION 128 true,
          NativeCall.releaseDevice d.id],
         Except.ok { d with id := 0 }) := by
      unfold destroyDevice
      rw [if_neg hid]
      simp only [platformQuery, if_pos hst, if_neg hpl]
      simp [hgate, hrel]
      simp [supportsAtLeast1Point2Run]
    rw [hfull]
    refine ⟨rfl, ?_, rfl⟩
    simp [releaseCount, isReleaseCall]
  · intro h0
    unfold destroyDevice
    rw [if_pos h0]
  · intro hid hgate
    have hfull : destroyDevice env d =
        ([NativeCall.getDeviceInfo d.id CL_DEVICE_PLATFORM 8 false,
          NativeCall.getPlatformInfo (env.devicePlatform d.id) CL_PLATFORM_VERSION 128 true],
         Except.ok { d with id := 0 }) := by
      unfold destroyDevice
      rw [if_neg hid]
      simp only [platformQuery, if_pos hst, if_neg hpl]
      simp [hgate]
      simp [supportsAtLeast1Point2Run]
    rw [hfull]
    refine ⟨?_, rfl⟩
    simp [releaseCount, isReleaseCall]
  · unfold destroyDevice
    simp

/-- C4 (witness): a concrete non-empty handle on the sample runtime
(platform version `OpenCL 1.2`): one release, identifier cleared. -/
theorem c4_witness :
    (destroyDevice sampleEnv { id := 5, typ := 2 }).1
        = [NativeCall.getDeviceInfo 5 CL_DEVICE_PLATFORM 8 false,
           NativeCall.getPlatformInfo 1 CL_PLATFORM_VERSION 128 true,
           NativeCall.releaseDevice 5]
    ∧ (destroyDevice sampleEnv { id := 5, typ := 2 }).2
        = Except.ok { id := 0, typ := 2 } := by
  have h := (c4_destroy_release_balanced sampleEnv { id := 5, typ := 2 }
    rfl (by decide) rfl).1 (by decide) (by decide)
  exact ⟨h.1, h.2.2⟩

/-- C5 (counterexample): the internal platform-version read of
`supportsAtLeast1Point2` is a single `clGetPlatformInfo` with a guessed
fixed 128-byte buffer — not a two-step size-then-fill string query. -/
theorem c5_counterexample :
    (supportsAtLeast1Point2Run sampleEnv 3).1
        = [NativeCall.getPlatformInfo 3 CL_PLATFORM_VERSION 128 true]
    ∧ isTwoStepStringRead (supportsAtLeast1Point2Run sampleEnv 3).1 = false :=
  ⟨rfl, rfl⟩

/-- C5 (amended): every device string query (name, vendor, version,
extensions) goes through the shared helper, which performs a size request
followed by a fill with a buffer of exactly the reported length; the
internal platform-version read, by contrast, is a single call with a
fixed 128-byte buffer. -/
theorem c5_string_queries_two_step (env : NativeEnv) (i key : Nat)
    (h : env.deviceInfoStatus i key = 0) :
    (getDeviceInfoString env i key).1
        = [NativeCall.getDeviceInfo i key 0 true,
           NativeCall.getDeviceInfo i key (env.deviceInfoSize i key) false]
    ∧ isTwoStepStringRead (getDeviceInfoString env i key).1 = true
    ∧ (∀ d : DeviceState,
        (deviceName env d).1 = (getDeviceInfoString env d.id CL_DEVICE_NAME).1
        ∧ (deviceVendor env d).1 = (getDeviceInfoString env d.id CL_DEVICE_VENDOR).1
        ∧ (deviceVersion env d).1 = (getDeviceInfoString env d.id CL_DEVICE_VERSION).1
        ∧ (deviceExtensions env d).1 = (getDeviceInfoString env d.id CL_DEVICE_EXTENSIONS).1)
    ∧ (∀ pid, (supportsAtLeast1Point2Run env pid).1
        = [NativeCall.getPlatformInfo pid CL_PLATFORM_VERSION 128 true]) := by
  have htr : (getDeviceInfoString env i key).1
      = [NativeCall.getDeviceInfo i key 0 true,
         NativeCall.getDeviceInfo i key (env.deviceInfoSize i key) false] := by
    unfold getDeviceInfoString
    rw [if_pos h]
  refine ⟨htr, ?_, fun d => ⟨rfl, rfl, rfl, rfl⟩, fun pid => rfl⟩
  rw [htr]
  simp [isTwoStepStringRead]

/-- C5 (witness): the device version query on the sample runtime. -/
theorem c5_witness :
    (getDeviceInfoString sampleEnv 5 CL_DEVICE_VERSION).1
        = [NativeCall.getDeviceInfo 5 CL_DEVICE_VERSION 0 true,
           NativeCall.getDeviceInfo 5 CL_DEVICE_VERSION 11 false]
    ∧ isTwoStepStringRead (getDeviceInfoString sampleEnv 5 CL_DEVICE_VERSION).1 = true := by
  have h := c5_string_queries_two_step sampleEnv 5 CL_DEVICE_VERSION rfl
  exact ⟨h.1, h.2.1⟩

/-- C6: on every version string the runtime gate of
`supportsAtLeast1Point2` (`major > 1 || (major == 1 && minor > 1)`)
computes the same boolean as `supportsVersion`'s rule at the threshold
`(1, 2)` — including unparsable strings, which parse as `(0,0)`. -/
theorem c6_gate_equiv (s : List Char) : gate12 s = supportsVersion s 1 2 := by
  simp only [gate12, supportsVersion]
  rw [show decide (1 < (sscanfVersion s).2) = decide ((2 : Int) ≤ (sscanfVersion s).2) from
    decide_eq_decide.mpr (by omega)]

/-- C7: when the handle is non-empty and the native platform query
succeeds but answers the null platform, the operation fails with the
distinct platform-not-found error — never the generic native error and
never a null result. -/
theorem c7_platform_not_found (env : NativeEnv) (d : DeviceState)
    (hid : d.id ≠ 0)
    (hst : env.deviceInfoStatus d.id CL_DEVICE_PLATFORM = 0)
    (hnull : env.devicePlatform d.id = 0) :
    (platformQuery env d).2 = Except.error OclError.platformNotFound
    ∧ (∀ code, OclError.platformNotFound ≠ OclError.nativeApiError code)
    ∧ (∀ p, (platformQuery env d).2 ≠ Except.ok p) := by
  have h2 : (platformQuery env d).2 = Except.error OclError.platformNotFound := by
    simp [platformQuery, hst, hnull]
  refine ⟨h2, fun code h => OclError.noConfusion h, fun p h => ?_⟩
  rw [h2] at h
  exact Except.noConfusion h

/-- C7 (witness): a concrete bound handle on a runtime answering the null
platform. -/
theorem c7_witness :
    (platformQuery nullPlatformEnv { id := 5, typ := 2 }).2
        = Except.error OclError.platformNotFound :=
  (c7_platform_not_found nullPlatformEnv { id := 5, typ := 2 } (by decide) rfl rfl).1

/-- C8: the extension scan leaves the buffer — the loop condition
dereferences the position one past the string's terminating null byte —
exactly when the extensions string is non-empty, does not end with a
space, and holds no matching token; it stays inside the buffer in every
other case. -/
theorem c8_scan_out_of_bounds (exts ext : List Char)
    (hnul : nulChar ∉ exts) (hext : ext ≠ []) :
    scanExtension exts ext = ScanResult.oobRead ↔
      exts ≠ [] ∧ endsWithSpace exts = false ∧ ext ∉ spaceTokens exts := by
  unfold scanExtension
  constructor
  · intro h
    refine ⟨?_, ?_, ?_⟩
    · intro h0
      subst h0
      simp [scanFuel] at h
    · rcases Bool.eq_false_or_eq_true (endsWithSpace exts) with hb | hb
      · exact absurd h
          (scan_endsSpace_not_oob ext (exts.length + 1) exts (by omega) hnul hb)
      · exact hb
    · intro hmem
      have hf := (scan_found_iff_token ext hext (exts.length + 1) exts (by omega) hnul).mpr hmem
      rw [hf] at h
      exact ScanResult.noConfusion h
  · rintro ⟨hne, hsp, hmem⟩
    cases hres : scanFuel ext (exts.length + 1) exts with
    | found =>
      exact absurd ((scan_found_iff_token ext hext (exts.length + 1) exts (by omega) hnul).mp hres) hmem
    | notFound =>
      rcases scan_notFound_ends ext (exts.length + 1) exts (by omega) hnul hres with h0 | h1
      · exact absurd h0 hne
      · rw [h1] at hsp
        exact Bool.noConfusion hsp
    | oobRead => rfl

/-- C8 (witness): the final-token miss of the claim's own example — the
scan leaves the buffer on `"cl_khr_fp64 cl_khr_gl_sharing"` queried for
`"cl_khr_fp"`. -/
theorem c8_witness :
    scanExtension (("cl_khr_fp64 cl_khr_gl_sharing").toList) (("cl_khr_fp").toList)
        = ScanResult.oobRead :=
  (c8_scan_out_of_bounds _ _ (by decide) (by decide)).mpr (by decide)

/-- C9: equality of handles is identifier-based (reflexive, symmetric,
independent of the category fields), comparison against a raw identifier
compares the stored identifier, and each inequality operator is the
negation of the matching equality operator. -/
theorem c9_equality_identifier_based (a b : DeviceState) (i t u : Nat) :
    (deviceEqDevice a b = true ↔ a.id = b.id)
    ∧ deviceEqDevice a a = true
    ∧ deviceEqDevice a b = deviceEqDevice b a
    ∧ deviceEqDevice { id := a.id, typ := t } { id := b.id, typ := u } = deviceEqDevice a b
    ∧ deviceNeDevice a b = !deviceEqDevice a b
    ∧ (deviceEqId a i = true ↔ a.id = i)
    ∧ deviceNeId a i = !deviceEqId a i := by
  unfold deviceEqDevice deviceNeDevice deviceEqId deviceNeId
  refine ⟨by simp [eq_comm], by simp, decide_eq_decide.mpr eq_comm, rfl, ?_,
    by simp [eq_comm], ?_⟩
  · rw [decide_not]
  · rw [decide_not]

/-- C10: `setId` stores the new identifier, issues no native call (in
particular no retain), and leaves the category field untouched. -/
theorem c10_set_id_frame (d : DeviceState) (i : Nat) :
    (setId d i).1 = [] ∧ (setId d i).2.id = i ∧ (setId d i).2.typ = d.typ :=
  ⟨rfl, rfl, rfl⟩
